import Mathlib

/-!
Verification of the FlowerStore district-tagging scripts.

Shallow embedding of `scripts/tag_districts.py` and
`scripts/clean_flowerstores.py`:
* Python strings become `String` / `List Char`; the `in` substring test and
  dict iteration (insertion order) are embedded as ordered association
  lists with first-match lookup.
* Python floats become `ℝ` for the haversine / nearest-centroid code and
  exact rationals (`ℚ`) for the decimal tokens parsed out of URLs and CSV
  fields.  Signed zeros, binary rounding and overflow-to-infinity of IEEE
  doubles are idealised away; this is noted at each definition it touches.
* Fallible Python code (`float(...)` raising `ValueError`) is embedded with
  `Option` / `Except`: a `none` / `.error` result models the exception.
-/

namespace FlowerStore

/-- `leadsWith needle hay` is true when `needle` is an initial segment of
`hay` (character-wise). -/
def leadsWith : List Char → List Char → Bool
  | [], _ => true
  | _ :: _, [] => false
  | a :: as, b :: bs => a == b && leadsWith as bs

/-- `containsSub needle hay` embeds Python's `needle in hay` substring
test over the characters of the two strings. -/
def containsSub (needle : List Char) : List Char → Bool
  | [] => needle.isEmpty
  | c :: rest => leadsWith needle (c :: rest) || containsSub needle rest

/-- Python's `needle in hay` on `str` values. -/
def strContains (hay needle : String) : Bool :=
  containsSub needle.data hay.data

/-- One pass of `for key, district in table.items(): if key in text:
return district` over an insertion-ordered dict, as in `infer_district`. -/
def lookupSubstr : List (String × String) → String → Option String
  | [], _ => none
  | (k, d) :: rest, text =>
    if strContains text k then some d else lookupSubstr rest text

/-- Python's `if name in table: return table[name]` over an
insertion-ordered dict with pairwise-distinct keys. -/
def lookupExact : List (String × String) → String → Option String
  | [], _ => none
  | (k, d) :: rest, n => if n = k then some d else lookupExact rest n

/-- `DISTRICT_KEYWORDS` from `tag_districts.py`: direct keywords searched in
the combined name/address/url text, in source (= dict insertion) order. -/
def DISTRICT_KEYWORDS : List (String × String) :=
  [("板橋", "新北市板橋區"),
   ("中和", "新北市中和區"),
   ("永和", "新北市永和區")]

/-- `ROAD_TO_DISTRICT` from `tag_districts.py`, in source order. -/
def ROAD_TO_DISTRICT : List (String × String) :=
  [("新海路", "新北市板橋區"),
   ("中正路", "新北市板橋區"),
   ("英士路", "新北市板橋區"),
   ("民生路二段", "新北市板橋區"),
   ("民生路一段", "新北市板橋區"),
   ("民生路", "新北市板橋區"),
   ("文化路一段", "新北市板橋區"),
   ("文化路二段", "新北市板橋區"),
   ("板橋花市", "新北市板橋區"),
   ("中山路一段", "新北市板橋區"),
   ("中山路二段", "新北市板橋區"),
   ("南雅南路", "新北市板橋區"),
   ("板新路", "新北市板橋區"),
   ("漢生東路", "新北市板橋區"),
   ("縣民大道", "新北市板橋區"),
   ("立德路", "新北市板橋區"),
   ("民德路", "新北市板橋區"),
   ("民權路", "新北市板橋區"),
   ("民族路", "新北市板橋區"),
   ("倉後街", "新北市板橋區"),
   ("長安街", "新北市板橋區"),
   ("校前街", "新北市板橋區"),
   ("陽明街", "新北市板橋區"),
   ("海山路", "新北市板橋區"),
   ("南華路", "新北市板橋區"),
   ("信義路", "新北市板橋區"),
   ("南門街", "新北市板橋區"),
   ("民生街", "新北市板橋區"),
   ("三民路", "新北市板橋區"),
   ("四川路一段", "新北市板橋區"),
   ("四川路二段", "新北市板橋區"),
   ("藝文街", "新北市板橋區"),
   ("連城路", "新北市中和區"),
   ("景新街", "新北市中和區"),
   ("和平路", "新北市中和區"),
   ("和平街", "新北市中和區"),
   ("中和路", "新北市中和區"),
   ("員山路", "新北市中和區"),
   ("南山路", "新北市中和區"),
   ("保健路", "新北市中和區"),
   ("延和路", "新北市永和區"),
   ("裕民路", "新北市土城區"),
   ("金城路", "新北市土城區"),
   ("忠孝路", "新北市土城區"),
   ("瓊林路", "新北市新莊區"),
   ("敦化北路", "台北市松山區"),
   ("長安東路", "台北市中山區"),
   ("萬寧街", "台北市文山區")]

/-- `MANUAL_OVERRIDES` from `tag_districts.py`, in source order. -/
def MANUAL_OVERRIDES : List (String × String) :=
  [("台北愛麗絲花坊網路花店", "台北市松山區"),
   ("玖桉花藝 南京復興", "台北市中山區"),
   ("榆果工作室 ( 榆果傢飾 )", "台北市文山區"),
   ("花見鍾情花坊", "新北市土城區"),
   ("Millie米莉花藝坊", "新北市土城區"),
   ("麗的花坊工作室", "新北市板橋區")]

/-- The `Centroid` dataclass: a named anchor point, coordinates in degrees. -/
structure Centroid where
  name : String
  lat : ℝ
  lon : ℝ

/-- `CENTROIDS` from `tag_districts.py`, in source (tuple) order. -/
noncomputable def CENTROIDS : List Centroid :=
  [⟨"新北市板橋區", 25.0112, 121.4637⟩,
   ⟨"新北市中和區", 24.9990, 121.4870⟩,
   ⟨"新北市永和區", 25.0090, 121.5150⟩,
   ⟨"新北市土城區", 24.9730, 121.4440⟩,
   ⟨"新北市新莊區", 25.0370, 121.4510⟩,
   ⟨"台北市松山區", 25.0520, 121.5560⟩,
   ⟨"台北市中山區", 25.0620, 121.5330⟩,
   ⟨"台北市文山區", 24.9950, 121.5540⟩]

/-- `math.radians`: degrees to radians. -/
noncomputable def radians (x : ℝ) : ℝ := x * Real.pi / 180

/-- `math.atan2 y x`, embedded over `ℝ` following the C library
definition (quadrant-corrected arctangent; `atan2 0 x = 0` for `x > 0`). -/
noncomputable def atan2 (y x : ℝ) : ℝ :=
  if 0 < x then Real.arctan (y / x)
  else if x < 0 ∧ 0 ≤ y then Real.arctan (y / x) + Real.pi
  else if x < 0 ∧ y < 0 then Real.arctan (y / x) - Real.pi
  else if x = 0 ∧ 0 < y then Real.pi / 2
  else if x = 0 ∧ y < 0 then -(Real.pi / 2)
  else 0

/-- The intermediate `a` of `great_circle_distance` (haversine term). -/
noncomputable def hav (lat1 lon1 lat2 lon2 : ℝ) : ℝ :=
  Real.sin (radians (lat2 - lat1) / 2) ^ 2 +
    Real.cos (radians lat1) * Real.cos (radians lat2) *
      Real.sin (radians (lon2 - lon1) / 2) ^ 2

/-- `great_circle_distance` from `tag_districts.py`: haversine distance in
kilometres with Earth radius 6371.0, embedded over `ℝ`. -/
noncomputable def great_circle_distance (lat1 lon1 lat2 lon2 : ℝ) : ℝ :=
  2 * 6371.0 *
    atan2 (Real.sqrt (hav lat1 lon1 lat2 lon2))
      (Real.sqrt (1 - hav lat1 lon1 lat2 lon2))

/-- The loop of Python's `min(iterable, key=...)` over key/value pairs:
keep the current best and replace it only when a later value is strictly
smaller, so the first minimal entry wins. -/
def minByFold {β α : Type} [LinearOrder α] (acc : β × α) :
    List (β × α) → β × α
  | [] => acc
  | p :: rest => minByFold (if p.2 < acc.2 then p else acc) rest

/-- `nearest_centroid` from `tag_districts.py`: build the insertion-ordered
`distances` dict (centroid names are pairwise distinct, so the dict has one
entry per centroid in registry order) and take `min(distances,
key=distances.get)`.  The `[]` branch is unreachable (`CENTROIDS` is a
fixed non-empty literal; Python's `min` would raise on an empty dict). -/
noncomputable def nearest_centroid (lat lon : ℝ) : String :=
  match CENTROIDS.map
      (fun c => (c.name, great_circle_distance lat lon c.lat c.lon)) with
  | [] => ""
  | p :: rest => (minByFold p rest).1

/-- `infer_district` from `tag_districts.py`: the four-stage rule cascade
with the `"待確認"` sentinel fallback. -/
noncomputable def infer_district (name address url : String)
    (lat lon : Option ℝ) : String :=
  let combined := name ++ " " ++ address ++ " " ++ url
  match lookupSubstr DISTRICT_KEYWORDS combined with
  | some district => district
  | none =>
    match lookupSubstr ROAD_TO_DISTRICT address with
    | some district => district
    | none =>
      match lookupExact MANUAL_OVERRIDES name with
      | some district => district
      | none =>
        match lat, lon with
        | some la, some lo => nearest_centroid la lo
        | _, _ => "待確認"

/-- All labels `infer_district` can produce: the values of the three rule
tables, the centroid registry names, and the unresolved sentinel. -/
noncomputable def allowedLabels : List String :=
  DISTRICT_KEYWORDS.map Prod.snd ++ ROAD_TO_DISTRICT.map Prod.snd ++
    MANUAL_OVERRIDES.map Prod.snd ++ CENTROIDS.map Centroid.name ++ ["待確認"]

/-- The character class of `COORD_RE`'s groups: `[0-9.+-]`. -/
def charsetOk (c : Char) : Bool :=
  c.isDigit || c == '.' || c == '+' || c == '-'

/-- Try to match `COORD_RE` (`!3d([0-9.+-]+)!4d([0-9.+-]+)`) at the start
of `l`, returning the two captured groups.  Greedy matching of the groups
needs no backtracking here: a group holds only `[0-9.+-]` characters while
the following literal starts with `!`, which is outside that class, so a
shorter group can never make the literal fit earlier. -/
def matchAt (l : List Char) : Option (List Char × List Char) :=
  if leadsWith "!3d".data l then
    let r1 := l.drop 3
    let g1 := r1.takeWhile charsetOk
    if g1.isEmpty then none
    else
      let r2 := r1.dropWhile charsetOk
      if leadsWith "!4d".data r2 then
        let g2 := (r2.drop 3).takeWhile charsetOk
        if g2.isEmpty then none else some (g1, g2)
      else none
  else none

/-- `COORD_RE.search`: try `matchAt` at every position left to right and
keep the leftmost match, as `re.search` does. -/
def searchCoord : List Char → Option (List Char × List Char)
  | [] => none
  | c :: rest =>
    match matchAt (c :: rest) with
    | some g => some g
    | none => searchCoord rest

/-- The value of a Python `float`: a finite value (kept exact as a
rational instead of an IEEE double), a signed infinity, or a NaN.
Binary rounding, overflow of huge literals to infinity and signed zeros
are idealised away. -/
inductive PyFloat
  | finite (q : ℚ)
  | inf (neg : Bool)
  | nan
deriving DecidableEq

/-- Tail of a Python digit part after its first digit: digits with single
underscores allowed only between digits. -/
def dpTail : List Char → Bool
  | [] => true
  | c :: rest =>
    if c.isDigit then dpTail rest
    else if c == '_' then
      match rest with
      | [] => false
      | d :: _ => d.isDigit && dpTail rest
    else false

/-- A Python `digitpart`: non-empty, starts and ends with a digit,
underscores only between digits. -/
def dpOk : List Char → Bool
  | [] => false
  | c :: rest => c.isDigit && dpTail rest

/-- Drop the underscores of a digit part. -/
def stripUnders (l : List Char) : List Char :=
  l.filter (fun c => c != '_')

/-- Decimal value of a list of digits. -/
def digitsVal (l : List Char) : ℕ :=
  l.foldl (fun a c => a * 10 + (c.toNat - 48)) 0

/-- Split a list at the first occurrence of `sep`, reporting whether the
separator was present. -/
def splitFirst (sep : Char) : List Char → List Char × Option (List Char)
  | [] => ([], none)
  | c :: rest =>
    if c == sep then ([], some rest)
    else
      let (a, b) := splitFirst sep rest
      (c :: a, b)

/-- Split a float literal at its first exponent marker `e`/`E`. -/
def splitExpChar : List Char → List Char × Option (List Char)
  | [] => ([], none)
  | c :: rest =>
    if c == 'e' || c == 'E' then ([], some rest)
    else
      let (a, b) := splitExpChar rest
      (c :: a, b)

/-- Strip an optional leading sign, returning (is-negative, rest). -/
def splitSign : List Char → Bool × List Char
  | '+' :: r => (false, r)
  | '-' :: r => (true, r)
  | l => (false, l)

/-- Python `float(s)` on an already-stripped string: the grammar
`sign? (inf | infinity | nan | digitpart? [. digitpart?] [exp])`
(case-insensitive for the named values, at least one digit in the
mantissa, exponent `e/E sign? digitpart`).  Non-ASCII digits are not
modelled.  `none` models the `ValueError` raise. -/
def pyFloatParse (l : List Char) : Option PyFloat :=
  let (neg, body) := splitSign l
  let low := body.map Char.toLower
  if low = "inf".data || low = "infinity".data then some (.inf neg)
  else if low = "nan".data then some .nan
  else
    let (mant, expOpt) := splitExpChar body
    let (ip, fo) := splitFirst '.' mant
    let mantOk :=
      match fo with
      | none => dpOk ip
      | some fp =>
        (ip.isEmpty || dpOk ip) && (fp.isEmpty || dpOk fp) &&
          !(ip.isEmpty && fp.isEmpty)
    if mantOk then
      let fpL := match fo with
        | none => []
        | some fp => stripUnders fp
      let mval : ℚ :=
        (digitsVal (stripUnders ip) : ℚ) +
          (digitsVal fpL : ℚ) / (10 : ℚ) ^ fpL.length
      match expOpt with
      | none => some (.finite (if neg then -mval else mval))
      | some ex =>
        let (eneg, ebody) := splitSign ex
        if dpOk ebody then
          let ev : ℤ := (digitsVal (stripUnders ebody) : ℤ)
          let v := mval * (10 : ℚ) ^ (if eneg then -ev else ev)
          some (.finite (if neg then -v else v))
        else none
    else none

/-- Python `int(s)` on an already-stripped base-10 string:
`sign? digitpart`.  `none` models the `ValueError` raise. -/
def pyIntParse (l : List Char) : Option ℤ :=
  let (neg, body) := splitSign l
  if dpOk body then
    let v : ℤ := (digitsVal (stripUnders body) : ℤ)
    some (if neg then -v else v)
  else none

/-- `extract_coords` from `tag_districts.py`.  `.ok (none, none)` is the
no-match return, `.ok (some lat, some lon)` the parsed pair, and
`.error ()` models the uncaught `ValueError` that `float(...)` raises
when a captured group is not a valid float literal. -/
def extract_coords (url : String) :
    Except Unit (Option PyFloat × Option PyFloat) :=
  match searchCoord url.data with
  | none => .ok (none, none)
  | some (g1, g2) =>
    match pyFloatParse g1, pyFloatParse g2 with
    | some f1, some f2 => .ok (some f1, some f2)
    | _, _ => .error ()

/-- The whitespace stripped by Python's `str.strip()`, restricted to the
ASCII whitespace characters (Unicode space characters are not modelled). -/
def isPySpace (c : Char) : Bool :=
  c == ' ' || c == '\t' || c == '\n' || c == '\r' ||
    c.toNat == 11 || c.toNat == 12

/-- Python `value.strip()`. -/
def pyStrip (s : String) : String :=
  ⟨((s.data.dropWhile isPySpace).reverse.dropWhile isPySpace).reverse⟩

/-- Decimal digit character of `n % 10`. -/
def digitChar (n : ℕ) : Char := Char.ofNat (48 + n % 10)

/-- Decimal digits of `n`, most significant first (fuel-driven so that it
reduces structurally; `fuel ≥ n + 1` always suffices). -/
def natDigits (fuel : ℕ) (n : ℕ) : List Char :=
  match fuel with
  | 0 => []
  | f + 1 =>
    if n < 10 then [digitChar n]
    else natDigits f (n / 10) ++ [digitChar (n % 10)]

/-- Decimal rendering of a natural number, as Python `str`. -/
def natToStr (n : ℕ) : String := ⟨natDigits (n + 1) n⟩

/-- Python `str` of an integer. -/
def intToStr (z : ℤ) : String :=
  if z < 0 then "-" ++ natToStr z.natAbs else natToStr z.natAbs

/-- Smallest `m` with `n * 10 ^ m ≥ d` (for `0 < n < d`), fuel-driven. -/
def expSearch (fuel : ℕ) (n d : ℕ) : ℕ :=
  match fuel with
  | 0 => 0
  | f + 1 => if d ≤ n then 0 else 1 + expSearch f (n * 10) d

/-- Largest `e` with `d * 10 ^ e ≤ n` (for `n ≥ d > 0`), fuel-driven. -/
def expSearchUp (fuel : ℕ) (n d : ℕ) : ℕ :=
  match fuel with
  | 0 => 0
  | f + 1 => if n < d * 10 then 0 else 1 + expSearchUp f n (d * 10)

/-- Decimal exponent `⌊log10 q⌋` of a positive rational. -/
def decExp (q : ℚ) : ℤ :=
  let n := q.num.natAbs
  let d := q.den
  if d ≤ n then (expSearchUp (n + 1) n d : ℤ)
  else -(expSearch (d + 1) n d : ℤ)

/-- Strip trailing zero digits. -/
def trimZeros (l : List Char) : List Char :=
  (l.reverse.dropWhile (· == '0')).reverse

/-- Pad with trailing zeros up to length `k`. -/
def padRight (l : List Char) (k : ℕ) : List Char :=
  l ++ List.replicate (k - l.length) '0'

/-- Fixed-point rendering of significant digits `sig` scaled by `10^e`,
as `%g` does for `-4 ≤ e ≤ 5`. -/
def fixedForm (sig : List Char) (e : ℤ) : String :=
  if 0 ≤ e then
    let k := e.toNat + 1
    let ip := padRight (sig.take k) k
    let fp := sig.drop k
    if fp.isEmpty then ⟨ip⟩ else ⟨ip⟩ ++ "." ++ ⟨fp⟩
  else "0." ++ ⟨List.replicate (-(e + 1)).toNat '0'⟩ ++ ⟨sig⟩

/-- Scientific rendering `d.ddde±XX` of significant digits `sig` scaled
by `10^e`, as `%g` does outside the fixed range. -/
def expForm (sig : List Char) (e : ℤ) : String :=
  let mant := match sig with
    | [] => "0"
    | c :: rest =>
      if rest.isEmpty then String.mk [c] else String.mk [c] ++ "." ++ ⟨rest⟩
  let esign := if e < 0 then "-" else "+"
  let eabs := e.natAbs
  let edigits := if eabs < 10 then "0" ++ natToStr eabs else natToStr eabs
  mant ++ "e" ++ esign ++ edigits

/-- `format(x, "g")` on a finite value: 6 significant digits, trailing
zeros dropped, scientific notation when the exponent is below -4 or at
least 6.  Ties are rounded half-up here, and the digits are those of the
exact rational; `%g` on an IEEE double rounds the binary value instead,
which agrees on all inputs of at most 6 significant decimal digits. -/
def gfmt (q : ℚ) : String :=
  if q = 0 then "0"
  else
    let sign := if q < 0 then "-" else ""
    let aq := |q|
    let e0 := decExp aq
    let s0 := (Int.floor (aq * (10 : ℚ) ^ ((5 : ℤ) - e0) + 1 / 2)).toNat
    let se := if 10 ^ 6 ≤ s0 then ((10 : ℕ) ^ 5, e0 + 1) else (s0, e0)
    let sig := trimZeros (natDigits (se.1 + 1) se.1)
    if -4 ≤ se.2 ∧ se.2 ≤ 5 then sign ++ fixedForm sig se.2
    else sign ++ expForm sig se.2

/-- `format(x, "g")` on any Python float value. -/
def formatG : PyFloat → String
  | .nan => "nan"
  | .inf false => "inf"
  | .inf true => "-inf"
  | .finite q => gfmt q

/-- `normalize_rating` from `clean_flowerstores.py`: strip, keep the empty
string, render `float(value)` with `%g`, and recover `ValueError` as the
empty string. -/
def normalize_rating (value : String) : String :=
  let v := pyStrip value
  if v = "" then ""
  else
    match pyFloatParse v.data with
    | none => ""
    | some f => formatG f

/-- `normalize_review_count` from `clean_flowerstores.py`: strip, keep the
empty string, render `int(value)` with `str`, and recover `ValueError` as
the empty string. -/
def normalize_review_count (value : String) : String :=
  let v := pyStrip value
  if v = "" then ""
  else
    match pyIntParse v.data with
    | none => ""
    | some z => intToStr z

/-! ### Lemmas about the ordered rule-table lookups -/

theorem lookupSubstr_mem (t : List (String × String)) (s d : String)
    (h : lookupSubstr t s = some d) : d ∈ t.map Prod.snd := by
  induction t with
  | nil => cases h
  | cons p rest ih =>
    obtain ⟨k1, d1⟩ := p
    cases hc : strContains s k1 with
    | true =>
      simp only [lookupSubstr, hc, if_true] at h
      injection h with h
      exact h ▸ List.mem_cons_self _ _
    | false =>
      simp only [lookupSubstr, hc] at h
      exact List.mem_cons_of_mem _ (ih h)

theorem lookupExact_mem (t : List (String × String)) (n d : String)
    (h : lookupExact t n = some d) : d ∈ t.map Prod.snd := by
  induction t with
  | nil => cases h
  | cons p rest ih =>
    obtain ⟨k1, d1⟩ := p
    by_cases hc : n = k1
    · simp only [lookupExact, hc, if_true] at h
      injection h with h
      exact h ▸ List.mem_cons_self _ _
    · simp only [lookupExact, hc, if_false] at h
      exact List.mem_cons_of_mem _ (ih h)

theorem lookupSubstr_first (text : String) (pre : List (String × String))
    (k d : String) (suf : List (String × String))
    (hk : strContains text k = true)
    (hpre : ∀ p ∈ pre, strContains text p.1 = false) :
    lookupSubstr (pre ++ (k, d) :: suf) text = some d := by
  induction pre with
  | nil => simp only [List.nil_append, lookupSubstr, hk, if_true]
  | cons p rest ih =>
    obtain ⟨k1, d1⟩ := p
    have hp : strContains text k1 = false := hpre (k1, d1) (List.mem_cons_self _ _)
    simp only [List.cons_append, lookupSubstr, hp, Bool.false_eq_true, if_false]
    exact ih fun q hq => hpre q (List.mem_cons_of_mem _ hq)

theorem lookupExact_first (n : String) (pre : List (String × String))
    (k d : String) (suf : List (String × String))
    (hk : n = k)
    (hpre : ∀ p ∈ pre, n ≠ p.1) :
    lookupExact (pre ++ (k, d) :: suf) n = some d := by
  induction pre with
  | nil => simp only [List.nil_append, lookupExact, hk, if_true]
  | cons p rest ih =>
    obtain ⟨k1, d1⟩ := p
    have hp : n ≠ k1 := hpre (k1, d1) (List.mem_cons_self _ _)
    simp only [List.cons_append, lookupExact, hp, if_false]
    exact ih fun q hq => hpre q (List.mem_cons_of_mem _ hq)

/-! ### The classifier cascade, one step at a time -/

theorem infer_eq_of_keyword (name address url : String) (lat lon : Option ℝ)
    (d : String)
    (h : lookupSubstr DISTRICT_KEYWORDS (name ++ " " ++ address ++ " " ++ url) =
      some d) :
    infer_district name address url lat lon = d := by
  simp only [infer_district, h]

theorem infer_eq_of_road (name address url : String) (lat lon : Option ℝ)
    (d : String)
    (h1 : lookupSubstr DISTRICT_KEYWORDS (name ++ " " ++ address ++ " " ++ url) =
      none)
    (h2 : lookupSubstr ROAD_TO_DISTRICT address = some d) :
    infer_district name address url lat lon = d := by
  simp only [infer_district, h1, h2]

theorem infer_eq_of_override (name address url : String) (lat lon : Option ℝ)
    (d : String)
    (h1 : lookupSubstr DISTRICT_KEYWORDS (name ++ " " ++ address ++ " " ++ url) =
      none)
    (h2 : lookupSubstr ROAD_TO_DISTRICT address = none)
    (h3 : lookupExact MANUAL_OVERRIDES name = some d) :
    infer_district name address url lat lon = d := by
  simp only [infer_district, h1, h2, h3]

theorem infer_eq_of_coord (name address url : String) (la lo : ℝ)
    (h1 : lookupSubstr DISTRICT_KEYWORDS (name ++ " " ++ address ++ " " ++ url) =
      none)
    (h2 : lookupSubstr ROAD_TO_DISTRICT address = none)
    (h3 : lookupExact MANUAL_OVERRIDES name = none) :
    infer_district name address url (some la) (some lo) =
      nearest_centroid la lo := by
  simp only [infer_district, h1, h2, h3]

theorem infer_eq_sentinel (name address url : String) (lat lon : Option ℝ)
    (h1 : lookupSubstr DISTRICT_KEYWORDS (name ++ " " ++ address ++ " " ++ url) =
      none)
    (h2 : lookupSubstr ROAD_TO_DISTRICT address = none)
    (h3 : lookupExact MANUAL_OVERRIDES name = none)
    (hco : lat = none ∨ lon = none) :
    infer_district name address url lat lon = "待確認" := by
  simp only [infer_district, h1, h2, h3]
  rcases hco with rfl | rfl
  · rfl
  · cases lat <;> rfl

/-- C1: the classifier is a strict priority cascade.  Each conjunct fixes
the outcome of one stage independently of everything the later stages
would look at: a keyword hit decides the label for every coordinate pair;
with no keyword hit a road hit decides it; with neither, an exact override
hit decides it for every coordinate pair (so an override entry wins even
when the coordinate is closer to a different centroid); with none of the
three, present coordinates go to the nearest centroid and otherwise the
sentinel `"待確認"` is returned. -/
theorem infer_district_cascade (name address url : String) :
    (∀ d, lookupSubstr DISTRICT_KEYWORDS
        (name ++ " " ++ address ++ " " ++ url) = some d →
      ∀ lat lon : Option ℝ, infer_district name address url lat lon = d) ∧
    (lookupSubstr DISTRICT_KEYWORDS (name ++ " " ++ address ++ " " ++ url) =
        none →
      ∀ d, lookupSubstr ROAD_TO_DISTRICT address = some d →
      ∀ lat lon : Option ℝ, infer_district name address url lat lon = d) ∧
    (lookupSubstr DISTRICT_KEYWORDS (name ++ " " ++ address ++ " " ++ url) =
        none →
      lookupSubstr ROAD_TO_DISTRICT address = none →
      ∀ d, lookupExact MANUAL_OVERRIDES name = some d →
      ∀ lat lon : Option ℝ, infer_district name address url lat lon = d) ∧
    (lookupSubstr DISTRICT_KEYWORDS (name ++ " " ++ address ++ " " ++ url) =
        none →
      lookupSubstr ROAD_TO_DISTRICT address = none →
      lookupExact MANUAL_OVERRIDES name = none →
      (∀ la lo : ℝ, infer_district name address url (some la) (some lo) =
        nearest_centroid la lo) ∧
      (∀ lat lon : Option ℝ, lat = none ∨ lon = none →
        infer_district name address url lat lon = "待確認")) := by
  refine ⟨?_, ?_, ?_, ?_⟩
  · intro d h lat lon
    exact infer_eq_of_keyword name address url lat lon d h
  · intro h1 d h2 lat lon
    exact infer_eq_of_road name address url lat lon d h1 h2
  · intro h1 h2 d h3 lat lon
    exact infer_eq_of_override name address url lat lon d h1 h2 h3
  · intro h1 h2 h3
    exact ⟨fun la lo => infer_eq_of_coord name address url la lo h1 h2 h3,
      fun lat lon hco => infer_eq_sentinel name address url lat lon h1 h2 h3 hco⟩

/-- C1 witness: a record whose address holds the road key `連城路` but
whose combined text holds the keyword `板橋` resolves via the keyword
table, and the override entry `花見鍾情花坊` wins even when the supplied
coordinate is exactly the `台北市中山區` centroid. -/
theorem infer_district_cascade_check :
    lookupSubstr DISTRICT_KEYWORDS
      ("板橋好花" ++ " " ++ "連城路10號" ++ " " ++ "") = some "新北市板橋區" ∧
    strContains "連城路10號" "連城路" = true ∧
    infer_district "板橋好花" "連城路10號" "" (some 25.0620) (some 121.5330) =
      "新北市板橋區" ∧
    lookupExact MANUAL_OVERRIDES "花見鍾情花坊" = some "新北市土城區" ∧
    infer_district "花見鍾情花坊" "" "" (some 25.0620) (some 121.5330) =
      "新北市土城區" := by
  refine ⟨by decide, by decide, ?_, by decide, ?_⟩
  · exact (infer_district_cascade "板橋好花" "連城路10號" "").1 "新北市板橋區"
      (by decide) (some 25.0620) (some 121.5330)
  · exact (infer_district_cascade "花見鍾情花坊" "" "").2.2.1 (by decide)
      (by decide) "新北市土城區" (by decide) (some 25.0620) (some 121.5330)

/-- C8 counterexample: the scenario of the claim cannot occur as stated.
Its address `新北市板橋區中山路一段100號` contains the keyword-table key
`板橋`, so a record with this address always has a keyword-table match
(the combined text extends the address), contradicting the claim's
premise "no keyword-table match". -/
theorem fallback_scenario_keyword_present :
    strContains "新北市板橋區中山路一段100號" "板橋" = true ∧
    ("板橋", "新北市板橋區") ∈ DISTRICT_KEYWORDS ∧
    lookupSubstr DISTRICT_KEYWORDS
      ("" ++ " " ++ "新北市板橋區中山路一段100號" ++ " " ++ "") =
      some "新北市板橋區" := by
  refine ⟨by decide, by decide, by decide⟩

/-- C8 amended: a record with address `新北市板橋區中山路一段100號` does
resolve to `新北市板橋區` with no coordinate present, but via the keyword
table (`板橋` occurs in the address); the road-table stage of the
scenario shows on a keyword-free address such as `中山路一段100號`, whose
road-table hit on `中山路一段` resolves to `新北市板橋區` with no
coordinate present. -/
theorem fallback_scenario_resolves :
    infer_district "" "新北市板橋區中山路一段100號" "" none none =
      "新北市板橋區" ∧
    lookupSubstr DISTRICT_KEYWORDS ("" ++ " " ++ "中山路一段100號" ++ " " ++ "") =
      none ∧
    lookupSubstr ROAD_TO_DISTRICT "中山路一段100號" = some "新北市板橋區" ∧
    infer_district "" "中山路一段100號" "" none none = "新北市板橋區" := by
  refine ⟨by decide, by decide, by decide, by decide⟩

/-! ### The first-minimum fold behind `min(distances, key=distances.get)` -/

theorem minByFold_mem {β α : Type} [LinearOrder α] (acc : β × α)
    (l : List (β × α)) : minByFold acc l ∈ acc :: l := by
  induction l generalizing acc with
  | nil => exact List.mem_singleton.mpr rfl
  | cons p rest ih =>
    by_cases h : p.2 < acc.2
    · have hfold : minByFold acc (p :: rest) = minByFold p rest := by
        simp only [minByFold, if_pos h]
      rw [hfold]
      exact List.mem_cons_of_mem _ (ih p)
    · have hfold : minByFold acc (p :: rest) = minByFold acc rest := by
        simp only [minByFold, if_neg h]
      rw [hfold]
      rcases List.mem_cons.mp (ih acc) with h2 | h2
      · rw [h2]
        exact List.mem_cons_self _ _
      · exact List.mem_cons_of_mem _ (List.mem_cons_of_mem _ h2)

theorem minByFold_spec {β α : Type} [LinearOrder α] (acc : β × α)
    (l : List (β × α)) :
    ∃ pre suf, acc :: l = pre ++ minByFold acc l :: suf ∧
      (∀ q ∈ acc :: l, (minByFold acc l).2 ≤ q.2) ∧
      (∀ q ∈ pre, (minByFold acc l).2 < q.2) := by
  induction l generalizing acc with
  | nil =>
    refine ⟨[], [], rfl, ?_, ?_⟩
    · intro q hq
      rw [List.mem_singleton] at hq
      subst hq
      exact le_rfl
    · intro q hq
      exact absurd hq (List.not_mem_nil q)
  | cons p rest ih =>
    by_cases h : p.2 < acc.2
    · obtain ⟨pre, suf, hsplit, hmin, hpre⟩ := ih p
      have hfold : minByFold acc (p :: rest) = minByFold p rest := by
        simp only [minByFold, if_pos h]
      refine ⟨acc :: pre, suf, ?_, ?_, ?_⟩
      · rw [hfold, List.cons_append, ← hsplit]
      · intro q hq
        rw [hfold]
        rcases List.mem_cons.mp hq with rfl | hq2
        · exact le_of_lt (lt_of_le_of_lt (hmin p (List.mem_cons_self _ _)) h)
        · exact hmin q hq2
      · intro q hq
        rw [hfold]
        rcases List.mem_cons.mp hq with rfl | hq2
        · exact lt_of_le_of_lt (hmin p (List.mem_cons_self _ _)) h
        · exact hpre q hq2
    · have hle : acc.2 ≤ p.2 := le_of_not_lt h
      obtain ⟨pre, suf, hsplit, hmin, hpre⟩ := ih acc
      have hfold : minByFold acc (p :: rest) = minByFold acc rest := by
        simp only [minByFold, if_neg h]
      cases pre with
      | nil =>
        rw [List.nil_append] at hsplit
        injection hsplit with h1 h2
        refine ⟨[], p :: suf, ?_, ?_, ?_⟩
        · rw [hfold, List.nil_append, ← h1, h2]
        · intro q hq
          rw [hfold]
          rcases List.mem_cons.mp hq with rfl | hq2
          · exact hmin q (List.mem_cons_self _ _)
          · rcases List.mem_cons.mp hq2 with rfl | hq3
            · rw [← h1]
              exact hle
            · exact hmin q (List.mem_cons_of_mem _ hq3)
        · intro q hq
          exact absurd hq (List.not_mem_nil q)
      | cons b pre2 =>
        rw [List.cons_append] at hsplit
        injection hsplit with h1 h2
        refine ⟨acc :: p :: pre2, suf, ?_, ?_, ?_⟩
        · rw [hfold]
          conv_lhs => rw [h2]
          rfl
        · intro q hq
          rw [hfold]
          rcases List.mem_cons.mp hq with rfl | hq2
          · exact hmin q (List.mem_cons_self _ _)
          · rcases List.mem_cons.mp hq2 with rfl | hq3
            · have hb := hpre b (List.mem_cons_self _ _)
              rw [← h1] at hb
              exact le_of_lt (lt_of_lt_of_le hb hle)
            · exact hmin q (List.mem_cons_of_mem _ hq3)
        · intro q hq
          rw [hfold]
          rcases List.mem_cons.mp hq with rfl | hq2
          · have hb := hpre b (List.mem_cons_self _ _)
            rw [← h1] at hb
            exact hb
          · rcases List.mem_cons.mp hq2 with rfl | hq3
            · have hb := hpre b (List.mem_cons_self _ _)
              rw [← h1] at hb
              exact lt_of_lt_of_le hb hle
            · exact hpre q (List.mem_cons_of_mem _ hq3)

theorem map_eq_append_cons {γ δ : Type} (f : γ → δ) :
    ∀ (l : List γ) (p : List δ) (x : δ) (s : List δ),
      l.map f = p ++ x :: s →
      ∃ l1 a l2, l = l1 ++ a :: l2 ∧ l1.map f = p ∧ f a = x ∧ l2.map f = s := by
  intro l
  induction l with
  | nil =>
    intro p x s h
    rw [List.map_nil] at h
    cases p <;> simp at h
  | cons a t ih =>
    intro p x s h
    cases p with
    | nil =>
      rw [List.map_cons, List.nil_append] at h
      injection h with h1 h2
      exact ⟨[], a, t, rfl, rfl, h1, h2⟩
    | cons b p2 =>
      rw [List.map_cons, List.cons_append] at h
      injection h with h1 h2
      obtain ⟨l1, a2, l2, e1, e2, e3, e4⟩ := ih p2 x s h2
      refine ⟨a :: l1, a2, l2, ?_, ?_, e3, e4⟩
      · rw [e1]
        rfl
      · rw [List.map_cons, e2, h1]

theorem nearest_centroid_mem (la lo : ℝ) :
    nearest_centroid la lo ∈ CENTROIDS.map Centroid.name := by
  obtain ⟨c0, cs, hC⟩ : ∃ c0 cs, CENTROIDS = c0 :: cs := ⟨_, _, rfl⟩
  have hmap : CENTROIDS.map
      (fun c => (c.name, great_circle_distance la lo c.lat c.lon)) =
      (c0.name, great_circle_distance la lo c0.lat c0.lon) ::
        cs.map (fun c => (c.name, great_circle_distance la lo c.lat c.lon)) := by
    rw [hC, List.map_cons]
  have hn : nearest_centroid la lo =
      (minByFold (c0.name, great_circle_distance la lo c0.lat c0.lon)
        (cs.map fun c => (c.name, great_circle_distance la lo c.lat c.lon))).1 := by
    unfold nearest_centroid
    rw [hmap]
  have hm := minByFold_mem
    (c0.name, great_circle_distance la lo c0.lat c0.lon)
    (cs.map fun c => (c.name, great_circle_distance la lo c.lat c.lon))
  rw [← hmap] at hm
  obtain ⟨c, hc, he⟩ := List.mem_map.mp hm
  rw [hn, ← he]
  exact List.mem_map_of_mem Centroid.name hc

/-- C2: classification is total and closed over the known labels: for all
record fields and optional coordinates, `infer_district` returns one label
drawn from the table values, the centroid names, and the sentinel
`"待確認"`, and that label is never the empty string.  (Returning exactly
one label and never raising hold by construction: the embedding is a total
function into `String`, with no error case.) -/
theorem infer_district_total (name address url : String)
    (lat lon : Option ℝ) :
    infer_district name address url lat lon ∈ allowedLabels ∧
    infer_district name address url lat lon ≠ "" := by
  have hall : ∀ x ∈ allowedLabels, x ≠ "" := by decide
  have hmem : infer_district name address url lat lon ∈ allowedLabels := by
    cases h1 : lookupSubstr DISTRICT_KEYWORDS
        (name ++ " " ++ address ++ " " ++ url) with
    | some d =>
      rw [infer_eq_of_keyword name address url lat lon d h1]
      have := lookupSubstr_mem _ _ _ h1
      simp only [allowedLabels, List.mem_append]
      tauto
    | none =>
      cases h2 : lookupSubstr ROAD_TO_DISTRICT address with
      | some d =>
        rw [infer_eq_of_road name address url lat lon d h1 h2]
        have := lookupSubstr_mem _ _ _ h2
        simp only [allowedLabels, List.mem_append]
        tauto
      | none =>
        cases h3 : lookupExact MANUAL_OVERRIDES name with
        | some d =>
          rw [infer_eq_of_override name address url lat lon d h1 h2 h3]
          have := lookupExact_mem _ _ _ h3
          simp only [allowedLabels, List.mem_append]
          tauto
        | none =>
          cases lat with
          | some la =>
            cases lon with
            | some lo =>
              rw [infer_eq_of_coord name address url la lo h1 h2 h3]
              have := nearest_centroid_mem la lo
              simp only [allowedLabels, List.mem_append]
              tauto
            | none =>
              rw [infer_eq_sentinel name address url _ _ h1 h2 h3 (Or.inr rfl)]
              simp [allowedLabels]
          | none =>
            rw [infer_eq_sentinel name address url _ _ h1 h2 h3 (Or.inl rfl)]
            simp [allowedLabels]
  exact ⟨hmem, hall _ hmem⟩

/-- C6: within one rule table the first matching key in table order wins.
For each of the three tables: if the table splits as
`pre ++ (k, d) :: suf`, the record's searchable text matches `k`, and no
key of `pre` matches, then the classifier (at that cascade stage) returns
`d` — regardless of any further keys matching inside `suf`. -/
theorem first_table_key_wins (name address url : String)
    (lat lon : Option ℝ) :
    (∀ pre k d suf, DISTRICT_KEYWORDS = pre ++ (k, d) :: suf →
      strContains (name ++ " " ++ address ++ " " ++ url) k = true →
      (∀ p ∈ pre,
        strContains (name ++ " " ++ address ++ " " ++ url) p.1 = false) →
      infer_district name address url lat lon = d) ∧
    (lookupSubstr DISTRICT_KEYWORDS (name ++ " " ++ address ++ " " ++ url) =
        none →
      ∀ pre k d suf, ROAD_TO_DISTRICT = pre ++ (k, d) :: suf →
      strContains address k = true →
      (∀ p ∈ pre, strContains address p.1 = false) →
      infer_district name address url lat lon = d) ∧
    (lookupSubstr DISTRICT_KEYWORDS (name ++ " " ++ address ++ " " ++ url) =
        none →
      lookupSubstr ROAD_TO_DISTRICT address = none →
      ∀ pre k d suf, MANUAL_OVERRIDES = pre ++ (k, d) :: suf →
      name = k →
      (∀ p ∈ pre, name ≠ p.1) →
      infer_district name address url lat lon = d) := by
  refine ⟨?_, ?_, ?_⟩
  · intro pre k d suf hsplit hk hpre
    have h : lookupSubstr DISTRICT_KEYWORDS
        (name ++ " " ++ address ++ " " ++ url) = some d := by
      rw [hsplit]
      exact lookupSubstr_first _ pre k d suf hk hpre
    exact infer_eq_of_keyword name address url lat lon d h
  · intro h1 pre k d suf hsplit hk hpre
    have h2 : lookupSubstr ROAD_TO_DISTRICT address = some d := by
      rw [hsplit]
      exact lookupSubstr_first _ pre k d suf hk hpre
    exact infer_eq_of_road name address url lat lon d h1 h2
  · intro h1 h2 pre k d suf hsplit hk hpre
    have h3 : lookupExact MANUAL_OVERRIDES name = some d := by
      rw [hsplit]
      exact lookupExact_first _ pre k d suf hk hpre
    exact infer_eq_of_override name address url lat lon d h1 h2 h3

/-- C6 witness: the address `連城路中山路一段` contains the road keys
`連城路` (mapping to `新北市中和區`) and `中山路一段` (mapping to
`新北市板橋區`).  `中山路一段` comes first in table order (position 9,
after nine non-matching keys), so the classifier returns `新北市板橋區`
even though `連城路` appears first in the text. -/
theorem first_table_key_wins_check :
    strContains "連城路中山路一段" "連城路" = true ∧
    strContains "連城路中山路一段" "中山路一段" = true ∧
    ("連城路", "新北市中和區") ∈ ROAD_TO_DISTRICT ∧
    infer_district "" "連城路中山路一段" "" none none = "新北市板橋區" := by
  refine ⟨by decide, by decide, by decide, ?_⟩
  exact (first_table_key_wins "" "連城路中山路一段" "" none none).2.1 (by decide)
    (ROAD_TO_DISTRICT.take 9) "中山路一段" "新北市板橋區"
    (ROAD_TO_DISTRICT.drop 10) (by decide) (by decide) (by decide)

/-! ### Coordinate extraction -/

theorem searchCoord_none_iff (l : List Char) :
    searchCoord l = none ↔ ∀ n, matchAt (l.drop n) = none := by
  induction l with
  | nil =>
    constructor
    · intro _ n
      rw [List.drop_nil]
      rfl
    · intro _
      rfl
  | cons c rest ih =>
    cases hm : matchAt (c :: rest) with
    | some g =>
      have hs : searchCoord (c :: rest) = some g := by
        simp only [searchCoord, hm]
      constructor
      · intro h
        rw [hs] at h
        cases h
      · intro hall
        have h0 := hall 0
        rw [List.drop_zero] at h0
        rw [h0] at hm
        cases hm
    | none =>
      have hs : searchCoord (c :: rest) = searchCoord rest := by
        simp only [searchCoord, hm]
      rw [hs, ih]
      constructor
      · intro hall n
        cases n with
        | zero =>
          rw [List.drop_zero]
          exact hm
        | succ m =>
          rw [List.drop_succ_cons]
          exact hall m
      · intro hall n
        have h := hall (n + 1)
        rw [List.drop_succ_cons] at h
        exact h

/-- C3 counterexample: the extractor is not total.  On the input
`"!3d.!4d."` the marker pattern matches with groups `"."` and `"."`,
`float(".")` raises `ValueError` (modelled by `pyFloatParse "." = none`),
and `extract_coords` propagates the exception (modelled `.error ()`)
instead of reporting "no coordinate found". -/
theorem extract_coords_raises_on_dots :
    searchCoord "!3d.!4d.".data = some (['.'], ['.']) ∧
    pyFloatParse ['.'] = none ∧
    extract_coords "!3d.!4d." = .error () := by
  refine ⟨by decide, by decide, rfl⟩

/-- C3 amended: the extractor is total except on matched-but-unparsable
tokens.  For every input string: if no position matches the marker
pattern, the result is the no-coordinate pair `(none, none)`; if the
leftmost match has groups that both parse as float literals, the parsed
pair is returned; if either group fails to parse, `float(...)` raises
(`.error ()`).  The final conjunct characterises the search: it returns
`none` exactly when no position of the string starts a match. -/
theorem extract_coords_cases (url : String) :
    (searchCoord url.data = none → extract_coords url = .ok (none, none)) ∧
    (∀ g1 g2, searchCoord url.data = some (g1, g2) →
      (∀ f1 f2, pyFloatParse g1 = some f1 → pyFloatParse g2 = some f2 →
        extract_coords url = .ok (some f1, some f2)) ∧
      (pyFloatParse g1 = none ∨ pyFloatParse g2 = none →
        extract_coords url = .error ())) ∧
    (searchCoord url.data = none ↔ ∀ n, matchAt (url.data.drop n) = none) := by
  refine ⟨?_, ?_, searchCoord_none_iff url.data⟩
  · intro h
    simp only [extract_coords, h]
  · intro g1 g2 h
    constructor
    · intro f1 f2 h1 h2
      simp only [extract_coords, h, h1, h2]
    · intro hor
      rcases hor with h1 | h2
      · simp only [extract_coords, h, h1]
      · cases hp : pyFloatParse g1 with
        | none => simp only [extract_coords, h, hp]
        | some f1 => simp only [extract_coords, h, hp, h2]

/-- C3 witness: a string without the marker pattern is the expected
non-exceptional no-coordinate outcome. -/
theorem extract_coords_cases_check :
    searchCoord "https://example.com/store".data = none ∧
    extract_coords "https://example.com/store" = .ok (none, none) :=
  ⟨by decide, (extract_coords_cases "https://example.com/store").1 (by decide)⟩

/-- C5 counterexample: a URL that contains the substring
`!3d25.0112!4d121.4637` need not yield `(25.0112, 121.4637)` — an earlier
occurrence of the marker pattern wins.  Here the first match is
`!3d1!4d2`, so the extractor returns `(1.0, 2.0)`. -/
theorem extract_coords_earlier_match :
    strContains "!3d1!4d2!3d25.0112!4d121.4637" "!3d25.0112!4d121.4637" =
      true ∧
    extract_coords "!3d1!4d2!3d25.0112!4d121.4637" =
      .ok (some (.finite 1), some (.finite 2)) ∧
    (1 : ℚ) ≠ 25.0112 := by
  refine ⟨by decide, by with_unfolding_all rfl, by norm_num⟩

/-- C5 amended: for every URL whose leftmost marker-pattern match has the
groups `25.0112` and `121.4637`, the extractor returns exactly
`(25.0112, 121.4637)` (values exact as rationals in this embedding); only
that first match determines the result, as the second conjunct shows on a
URL with an earlier competing match. -/
theorem extract_coords_round_trip :
    (∀ url : String,
      searchCoord url.data = some ("25.0112".data, "121.4637".data) →
      extract_coords url =
        .ok (some (.finite 25.0112), some (.finite 121.4637))) ∧
    extract_coords "!3d1!4d2!3d25.0112!4d121.4637" =
      .ok (some (.finite 1), some (.finite 2)) := by
  constructor
  · intro url h
    have h1 : pyFloatParse "25.0112".data = some (.finite 25.0112) := by
      with_unfolding_all rfl
    have h2 : pyFloatParse "121.4637".data = some (.finite 121.4637) := by
      with_unfolding_all rfl
    simp only [extract_coords, h, h1, h2]
  · with_unfolding_all rfl

/-- C5 witness: a typical map URL whose only marker match is the round
trip pair. -/
theorem extract_coords_round_trip_check :
    searchCoord "https://maps.example/place/!3d25.0112!4d121.4637?hl=x".data =
      some ("25.0112".data, "121.4637".data) ∧
    extract_coords "https://maps.example/place/!3d25.0112!4d121.4637?hl=x" =
      .ok (some (.finite 25.0112), some (.finite 121.4637)) :=
  ⟨by decide, extract_coords_round_trip.1 _ (by decide)⟩

/-- C10: extraction results are paired — every non-exceptional result is
either the all-absent pair `(none, none)` or a fully-present pair
`(some lat, some lon)`; a mixed pair is never returned even though the
result type would allow it. -/
theorem extract_coords_paired (url : String)
    (r : Option PyFloat × Option PyFloat)
    (h : extract_coords url = .ok r) :
    (r.1 = none ∧ r.2 = none) ∨ ∃ a b, r.1 = some a ∧ r.2 = some b := by
  cases hs : searchCoord url.data with
  | none =>
    have h2 : extract_coords url = .ok (none, none) := by
      simp only [extract_coords, hs]
    rw [h2] at h
    injection h with h
    rw [← h]
    exact Or.inl ⟨rfl, rfl⟩
  | some g =>
    obtain ⟨g1, g2⟩ := g
    cases hp1 : pyFloatParse g1 with
    | none =>
      have h2 : extract_coords url = .error () := by
        simp only [extract_coords, hs, hp1]
      rw [h2] at h
      cases h
    | some f1 =>
      cases hp2 : pyFloatParse g2 with
      | none =>
        have h2 : extract_coords url = .error () := by
          simp only [extract_coords, hs, hp1, hp2]
        rw [h2] at h
        cases h
      | some f2 =>
        have h2 : extract_coords url = .ok (some f1, some f2) := by
          simp only [extract_coords, hs, hp1, hp2]
        rw [h2] at h
        injection h with h
        rw [← h]
        exact Or.inr ⟨f1, f2, rfl, rfl⟩

/-- C10 witness. -/
theorem extract_coords_paired_check :
    extract_coords "!3d1!4d2" = .ok (some (.finite 1), some (.finite 2)) ∧
    (((some (PyFloat.finite 1), some (PyFloat.finite 2)).1 = none ∧
        ((some (PyFloat.finite 1), some (PyFloat.finite 2)) :
          Option PyFloat × Option PyFloat).2 = none) ∨
      ∃ a b, ((some (PyFloat.finite 1), some (PyFloat.finite 2)) :
          Option PyFloat × Option PyFloat).1 = some a ∧
        ((some (PyFloat.finite 1), some (PyFloat.finite 2)) :
          Option PyFloat × Option PyFloat).2 = some b) := by
  have h : extract_coords "!3d1!4d2" =
      .ok (some (.finite 1), some (.finite 2)) := by
    with_unfolding_all rfl
  exact ⟨h, extract_coords_paired "!3d1!4d2" _ h⟩

/-! ### Field normalization in the cleaning script -/

/-- C9: unparsable numeric fields are recovered locally.  For every input
string: when the stripped value is empty or does not parse as a float
(resp. base-10 int), the rating (resp. review-count) normalizer returns
the empty string — the `ValueError` from `float(...)`/`int(...)` is
caught, never propagated (in the embedding the parse is an `Option`, so
no exception can escape by construction); when the stripped value parses,
the normalizer returns its numeric rendering (`%g` resp. `str`). -/
theorem normalize_recovers (s : String) :
    (pyStrip s = "" ∨ pyFloatParse (pyStrip s).data = none →
      normalize_rating s = "") ∧
    (∀ f, pyFloatParse (pyStrip s).data = some f →
      normalize_rating s = formatG f) ∧
    (pyStrip s = "" ∨ pyIntParse (pyStrip s).data = none →
      normalize_review_count s = "") ∧
    (∀ z, pyIntParse (pyStrip s).data = some z →
      normalize_review_count s = intToStr z) := by
  refine ⟨?_, ?_, ?_, ?_⟩
  · intro h
    by_cases he : pyStrip s = ""
    · simp [normalize_rating, he]
    · rcases h with h | h
      · exact absurd h he
      · simp only [normalize_rating, if_neg he, h]
  · intro f h
    by_cases he : pyStrip s = ""
    · rw [he] at h
      have hn : pyFloatParse ("" : String).data = none := rfl
      rw [hn] at h
      cases h
    · simp only [normalize_rating, if_neg he, h]
  · intro h
    by_cases he : pyStrip s = ""
    · simp [normalize_review_count, he]
    · rcases h with h | h
      · exact absurd h he
      · simp only [normalize_review_count, if_neg he, h]
  · intro z h
    by_cases he : pyStrip s = ""
    · rw [he] at h
      have hn : pyIntParse ("" : String).data = none := rfl
      rw [hn] at h
      cases h
    · simp only [normalize_review_count, if_neg he, h]

/-- C9 witness: `"4..5"` and `"4.2"` are unparsable for their field kinds
and normalize to the empty string; `" 4.50 "` and `" 42 "` parse and are
rendered. -/
theorem normalize_recovers_check :
    pyFloatParse (pyStrip "4..5").data = none ∧
    normalize_rating "4..5" = "" ∧
    pyFloatParse (pyStrip " 4.50 ").data = some (.finite (9 / 2)) ∧
    normalize_rating " 4.50 " = formatG (.finite (9 / 2)) ∧
    pyIntParse (pyStrip "4.2").data = none ∧
    normalize_review_count "4.2" = "" ∧
    pyIntParse (pyStrip " 42 ").data = some 42 ∧
    normalize_review_count " 42 " = intToStr 42 := by
  refine ⟨by decide, (normalize_recovers "4..5").1 (Or.inr (by decide)),
    by with_unfolding_all rfl,
    (normalize_recovers " 4.50 ").2.1 _ (by with_unfolding_all rfl),
    by decide, (normalize_recovers "4.2").2.2.1 (Or.inr (by decide)),
    by decide, (normalize_recovers " 42 ").2.2.2 42 (by decide)⟩

/-! ### Geometry claims over the real-number embedding -/

/-- C7: the great-circle distance is symmetric in its two points and zero
on coincident points (exactly zero in the real-number embedding; the
floating-point code computes `sin 0 = 0` on coincident inputs as well). -/
theorem great_circle_symm_zero :
    (∀ lat1 lon1 lat2 lon2 : ℝ,
      great_circle_distance lat1 lon1 lat2 lon2 =
        great_circle_distance lat2 lon2 lat1 lon1) ∧
    (∀ lat lon : ℝ, great_circle_distance lat lon lat lon = 0) := by
  have hradneg : ∀ a b : ℝ, radians (a - b) = -radians (b - a) := by
    intro a b
    unfold radians
    ring
  have hsin : ∀ x : ℝ, Real.sin (-x / 2) ^ 2 = Real.sin (x / 2) ^ 2 := by
    intro x
    rw [neg_div, Real.sin_neg, neg_sq]
  have hhav : ∀ lat1 lon1 lat2 lon2 : ℝ,
      hav lat1 lon1 lat2 lon2 = hav lat2 lon2 lat1 lon1 := by
    intro lat1 lon1 lat2 lon2
    unfold hav
    rw [hradneg lat1 lat2, hradneg lon1 lon2, hsin, hsin,
      mul_comm (Real.cos (radians lat2)) (Real.cos (radians lat1))]
  constructor
  · intro lat1 lon1 lat2 lon2
    unfold great_circle_distance
    rw [hhav lat1 lon1 lat2 lon2]
  · intro lat lon
    have h0 : hav lat lon lat lon = 0 := by
      unfold hav radians
      rw [sub_self, sub_self, zero_mul, zero_div, zero_div, Real.sin_zero]
      ring
    unfold great_circle_distance
    rw [h0, Real.sqrt_zero, sub_zero, Real.sqrt_one]
    have ha : atan2 0 1 = 0 := by
      unfold atan2
      rw [if_pos one_pos, zero_div, Real.arctan_zero]
    rw [ha, mul_zero]

/-- C4: nearest-centroid resolution is deterministic with a
first-in-registry tie-break.  For every coordinate there is a split of the
registry `CENTROIDS = pre ++ c :: suf` such that the resolver returns
`c.name`, `c` has minimal distance among all centroids, and every centroid
before `c` in registry order is strictly farther — so on an exact distance
tie the earliest centroid in definition order is returned. -/
theorem nearest_centroid_first_min (lat lon : ℝ) :
    ∃ pre c suf, CENTROIDS = pre ++ c :: suf ∧
      nearest_centroid lat lon = c.name ∧
      (∀ c2 ∈ CENTROIDS, great_circle_distance lat lon c.lat c.lon ≤
        great_circle_distance lat lon c2.lat c2.lon) ∧
      (∀ c2 ∈ pre, great_circle_distance lat lon c.lat c.lon <
        great_circle_distance lat lon c2.lat c2.lon) := by
  obtain ⟨c0, cs, hC⟩ : ∃ c0 cs, CENTROIDS = c0 :: cs := ⟨_, _, rfl⟩
  have hmap : CENTROIDS.map
      (fun c => (c.name, great_circle_distance lat lon c.lat c.lon)) =
      (c0.name, great_circle_distance lat lon c0.lat c0.lon) ::
        cs.map (fun c => (c.name, great_circle_distance lat lon c.lat c.lon)) := by
    rw [hC, List.map_cons]
  have hn : nearest_centroid lat lon =
      (minByFold (c0.name, great_circle_distance lat lon c0.lat c0.lon)
        (cs.map fun c => (c.name, great_circle_distance lat lon c.lat c.lon))).1 := by
    unfold nearest_centroid
    rw [hmap]
  obtain ⟨pre1, suf1, hsplit1, hmin1, hpre1⟩ := minByFold_spec
    (c0.name, great_circle_distance lat lon c0.lat c0.lon)
    (cs.map fun c => (c.name, great_circle_distance lat lon c.lat c.lon))
  rw [← hmap] at hsplit1 hmin1
  obtain ⟨pre, c, suf, hsp, hmp, hfc, hms⟩ :=
    map_eq_append_cons
      (fun c => (c.name, great_circle_distance lat lon c.lat c.lon))
      CENTROIDS pre1 _ suf1 hsplit1
  refine ⟨pre, c, suf, hsp, ?_, ?_, ?_⟩
  · rw [hn, ← hfc]
  · intro c2 hc2
    have hmem :
        (fun c => (c.name, great_circle_distance lat lon c.lat c.lon)) c2 ∈
          CENTROIDS.map
            (fun c => (c.name, great_circle_distance lat lon c.lat c.lon)) :=
      List.mem_map_of_mem _ hc2
    have hle := hmin1 _ hmem
    rw [← hfc] at hle
    exact hle
  · intro c2 hc2
    have hmem :
        (fun c => (c.name, great_circle_distance lat lon c.lat c.lon)) c2 ∈
          pre1 := by
      rw [← hmp]
      exact List.mem_map_of_mem _ hc2
    have hlt := hpre1 _ hmem
    rw [← hfc] at hlt
    exact hlt

end FlowerStore
